import Mathlib

/-!
Shallow embedding of the rule-based invoice extractor
`interpret_invoice_data_regex` from `src/app_with_ollama.py`.

The Python function works on a whitespace-normalized single-line corpus
(`full_text`) and runs a fixed sequence of regular-expression passes:
client address, client name (three layered strategies), iPhone items with
grouped quantities, an explicit invoice total (two pattern tiers), a color
annotation pass, and two fallbacks (labeled generic price, placeholder item).

Each regular expression of the source is embedded as an explicit scanner
over `List Char` with Python `re` semantics (leftmost match, greedy
quantifiers; the patterns are such that greedy matching with the required
follow-sets is deterministic, which is argued pattern by pattern in the
comments).  Character classes follow the source patterns over the
ASCII-plus-French-accents repertoire the source uses; `\s`, `\d` and word
characters are modeled over that repertoire.  Python floats are modeled as
integer cents (every monetary value in the source is a two-decimal
literal, so this is exact), and Python `round` as round-half-to-even on
the exact quotient.  The embedding's integer arithmetic is unbounded and
total, whereas the source converts unbounded Python ints to IEEE doubles,
which raises OverflowError beyond `2 ^ 1024`; that error path is not
modeled (it is exhibited concretely at the C8 failing input below).
The timestamp-derived fields
(`date`, `invoice_number`) are injected through an explicit `Stamp`
parameter, mirroring the two `datetime.now()` reads.
-/

abbrev Chars := List Char

/-- Python `\s` (ASCII fragment): space, tab, newline, carriage return,
vertical tab, form feed. -/
def isSpaceCh (c : Char) : Bool :=
  c = ' ' || c = '\t' || c = '\n' || c = '\r' || c = '\x0b' || c = '\x0c'

/-- Python `\d` over ASCII. -/
def isDigitCh (c : Char) : Bool := '0' ≤ c && c ≤ '9'

def isAsciiUp (c : Char) : Bool := 'A' ≤ c && c ≤ 'Z'

def isAsciiLow (c : Char) : Bool := 'a' ≤ c && c ≤ 'z'

def isAsciiLetter (c : Char) : Bool := isAsciiUp c || isAsciiLow c

/-- The accented lowercase letters appearing in the source's classes:
`éèêàâôùûîïç`. -/
def accentedLow (c : Char) : Bool :=
  c = 'é' || c = 'è' || c = 'ê' || c = 'à' || c = 'â' || c = 'ô' ||
  c = 'ù' || c = 'û' || c = 'î' || c = 'ï' || c = 'ç'

/-- Uppercase variants of `accentedLow` (reachable through `re.IGNORECASE`). -/
def accentedUp (c : Char) : Bool :=
  c = 'É' || c = 'È' || c = 'Ê' || c = 'À' || c = 'Â' || c = 'Ô' ||
  c = 'Ù' || c = 'Û' || c = 'Î' || c = 'Ï' || c = 'Ç'

/-- Case folding used to model `re.IGNORECASE` over the repertoire above. -/
def lowerFr (c : Char) : Char :=
  if isAsciiUp c then Char.ofNat (c.toNat + 32)
  else if c = 'É' then 'é' else if c = 'È' then 'è' else if c = 'Ê' then 'ê'
  else if c = 'À' then 'à' else if c = 'Â' then 'â' else if c = 'Ô' then 'ô'
  else if c = 'Ù' then 'ù' else if c = 'Û' then 'û' else if c = 'Î' then 'î'
  else if c = 'Ï' then 'ï' else if c = 'Ç' then 'ç' else c

/-- Class `[A-Za-zéèêàâôùûîïç]` under `re.IGNORECASE` (city names, and the
name-word class `[a-zéèêàâôùûîïç]` when the flag is set). -/
def isNameCharCI (c : Char) : Bool := isAsciiLetter c || accentedLow c || accentedUp c

/-- Class `[a-zéèêàâôùûîïç]` without `re.IGNORECASE` (name patterns 2 and 3). -/
def isNameLow (c : Char) : Bool := isAsciiLow c || accentedLow c

/-- Python word character `\w` over the modeled repertoire (for `\b`). -/
def isWordCh (c : Char) : Bool :=
  isAsciiLetter c || isDigitCh c || c = '_' || accentedLow c || accentedUp c

/-- Model of `int(...)` on the digit strings captured by `\d+` (never raises
there). -/
def natOfDigits (cs : Chars) : Nat :=
  cs.foldl (fun a c => a * 10 + (c.toNat - '0'.toNat)) 0

/-- Python `str.strip()` over the modeled whitespace. -/
def stripChars (l : Chars) : Chars :=
  ((l.dropWhile isSpaceCh).reverse.dropWhile isSpaceCh).reverse

/-- Model of `extracted_text.split` on the newline character. -/
def splitNl : Chars → List Chars
  | [] => [[]]
  | c :: cs =>
    if c = '\n' then [] :: splitNl cs
    else
      match splitNl cs with
      | [] => [[c]]
      | l :: ls => (c :: l) :: ls

/-- Model of the `lines` comprehension: split on newlines, strip each line,
drop the blank ones. -/
def mkLines (s : String) : List Chars :=
  ((splitNl s.data).map stripChars).filter (fun l => !l.isEmpty)

/-- Model of `full_text`: the stripped lines joined by single spaces. -/
def mkFullText (s : String) : Chars :=
  List.intercalate [' '] (mkLines s)

/-- Prefix test used to model `str.find`. -/
def startsWithChars : Chars → Chars → Bool
  | [], _ => true
  | _ :: _, [] => false
  | p :: ps, c :: cs => p = c && startsWithChars ps cs

def findSubGo (needle : Chars) : Chars → Nat → Option Nat
  | [], i => if needle.isEmpty then some i else none
  | c :: cs, i =>
    if startsWithChars needle (c :: cs) then some i else findSubGo needle cs (i + 1)

/-- Model of `full_text.find(needle)`: index of the first occurrence
(`none` for -1). -/
def findSub (needle hay : Chars) : Option Nat := findSubGo needle hay 0

/-- Case-insensitive literal match: the pattern is given lowercase; on
success, returns the rest of the input (consumes `pat.length` characters). -/
def matchCI : Chars → Chars → Option Chars
  | [], s => some s
  | _ :: _, [] => none
  | p :: ps, c :: cs => if lowerFr c = p then matchCI ps cs else none

/-- Ordered alternation of case-insensitive literal tokens, first match wins
(the source's alternations have pairwise non-prefix alternatives, so this is
exactly the backtracking semantics).  Returns the consumed original
characters and the rest. -/
def firstTok : List Chars → Chars → Option (Chars × Chars)
  | [], _ => none
  | t :: ts, s =>
    match matchCI t s with
    | some r => some (s.take t.length, r)
    | none => firstTok ts s

/-- Leftmost-match driver for `re.search`: try the position matcher at every
suffix, in order. -/
def searchO (f : Chars → Option α) : Chars → Option α
  | [] => f []
  | c :: cs =>
    match f (c :: cs) with
    | some x => some x
    | none => searchO f cs

/-- Non-overlapping scan driver for `re.findall`.  The matcher returns its
payload and the rest of the input after the match; all of the source's
`findall` patterns consume at least one character on success. -/
def findAllGo (f : Chars → Option (α × Chars)) : Nat → Chars → List α
  | 0, _ => []
  | _ + 1, [] => []
  | n + 1, c :: cs =>
    match f (c :: cs) with
    | some (a, rest) => a :: findAllGo f n rest
    | none => findAllGo f n cs

def findAllL (f : Chars → Option (α × Chars)) (cs : Chars) : List α :=
  findAllGo f (cs.length + 1) cs

/-- Driver for `re.findall` that additionally tracks the character preceding the
current position (needed for the `\b` assertions of name pattern 3). -/
def findAllPrevGo (f : Option Char → Chars → Option (α × Option Char × Chars)) :
    Nat → Option Char → Chars → List α
  | 0, _, _ => []
  | _ + 1, _, [] => []
  | n + 1, prev, c :: cs =>
    match f prev (c :: cs) with
    | some (a, p, rest) => a :: findAllPrevGo f n p rest
    | none => findAllPrevGo f n (some c) cs

def findAllPrev (f : Option Char → Chars → Option (α × Option Char × Chars))
    (cs : Chars) : List α :=
  findAllPrevGo f (cs.length + 1) none cs

/-! ### Address extraction

The source pattern `address_pattern` is
`(\d+\s+(?:rue|avenue|boulevard|place|chemin|allée|impasse)[^,\n]+,\s*\d\x7b5\x7d\s+[A-Za-zéèêàâôùûîïç]+)`
searched with `re.IGNORECASE`.  Greedy matching is deterministic here:
`[^,\n]+` stops at the first comma (commas are excluded from the class), the
digit/whitespace runs are maximal, and no alternative of the street
alternation is a prefix of another. -/

def streetTokens : List Chars :=
  ["rue".data, "avenue".data, "boulevard".data, "place".data,
   "chemin".data, "allée".data, "impasse".data]

/-- Exactly five digits, the postal code part of the pattern. -/
def fiveDigits : Chars → Option Chars
  | a :: b :: c :: d :: e :: rest =>
    if isDigitCh a && isDigitCh b && isDigitCh c && isDigitCh d && isDigitCh e
    then some rest else none
  | _ => none

/-- Attempt the address pattern at one position; returns the rest after the
match. -/
def addressAt (cs : Chars) : Option Chars :=
  let d1 := cs.takeWhile isDigitCh
  if d1.isEmpty then none else
  let r1 := cs.dropWhile isDigitCh
  let s1 := r1.takeWhile isSpaceCh
  if s1.isEmpty then none else
  let r2 := r1.dropWhile isSpaceCh
  match firstTok streetTokens r2 with
  | none => none
  | some (_, r3) =>
    let body := r3.takeWhile (fun c => !(c = ',' || c = '\n'))
    if body.isEmpty then none else
    match r3.dropWhile (fun c => !(c = ',' || c = '\n')) with
    | ',' :: r5 =>
      match fiveDigits (r5.dropWhile isSpaceCh) with
      | none => none
      | some r7 =>
        let s2 := r7.takeWhile isSpaceCh
        if s2.isEmpty then none else
        let r8 := r7.dropWhile isSpaceCh
        let city := r8.takeWhile isNameCharCI
        if city.isEmpty then none else some (r8.dropWhile isNameCharCI)
    | _ => none

/-- Search for `address_pattern` over `full_text` under IGNORECASE: leftmost match,
returned as the matched text (group 1 is the whole match). -/
def searchAddress : Chars → Option Chars
  | [] => none
  | c :: cs =>
    match addressAt (c :: cs) with
    | some r => some ((c :: cs).take ((c :: cs).length - r.length))
    | none => searchAddress cs

/-! ### Name extraction -/

/-- Labels `(?:Nom|Pour|Client)` under `re.IGNORECASE`. -/
def nameLabels : List Chars := ["nom".data, "pour".data, "client".data]

/-- The capture `([A-Z][a-zéèêàâôùûîïç]+\s+[A-Z][a-zéèêàâôùûîïç]+)` under
`re.IGNORECASE` (so `[A-Z]` means any ASCII letter and the word class also
admits uppercase); returns the captured characters. -/
def capPairCI (cs : Chars) : Option Chars :=
  match cs with
  | [] => none
  | c1 :: r1 =>
    if isAsciiLetter c1 then
      let w1 := r1.takeWhile isNameCharCI
      if w1.isEmpty then none else
      let r2 := r1.dropWhile isNameCharCI
      let sp := r2.takeWhile isSpaceCh
      if sp.isEmpty then none else
      match r2.dropWhile isSpaceCh with
      | [] => none
      | c2 :: r4 =>
        if isAsciiLetter c2 then
          let w2 := r4.takeWhile isNameCharCI
          if w2.isEmpty then none
          else some (c1 :: w1 ++ sp ++ c2 :: w2)
        else none
    else none

/-- The label route of name pattern 1: `(?:Nom|Pour|Client)\s*:\s*(...)`. -/
def name1At (cs : Chars) : Option Chars :=
  match firstTok nameLabels cs with
  | none => none
  | some (_, r1) =>
    match r1.dropWhile isSpaceCh with
    | ':' :: r2 => capPairCI (r2.dropWhile isSpaceCh)
    | _ => none

/-- Positions after the start: `[.!?]\s+` then the label route. -/
def name1Go : Chars → Option Chars
  | [] => none
  | c :: cs =>
    match
      (if c = '.' || c = '!' || c = '?' then
        (if (cs.takeWhile isSpaceCh).isEmpty then none
         else name1At (cs.dropWhile isSpaceCh))
       else none) with
    | some n => some n
    | none => name1Go cs

/-- Search for `name_with_label_pattern` under IGNORECASE and MULTILINE.
`full_text` never contains a newline, so the caret only matches at position 0. -/
def name1Search (ft : Chars) : Option Chars :=
  match name1At ft with
  | some n => some n
  | none => name1Go ft

/-- The strict (no-flag) capture `([A-Z][a-zéèêàâôùûîïç]+\s+[A-Z][a-zéèêàâôùûîïç]+)`;
returns the captured characters and the rest. -/
def capPairStrict (cs : Chars) : Option (Chars × Chars) :=
  match cs with
  | [] => none
  | c1 :: r1 =>
    if isAsciiUp c1 then
      let w1 := r1.takeWhile isNameLow
      if w1.isEmpty then none else
      let r2 := r1.dropWhile isNameLow
      let sp := r2.takeWhile isSpaceCh
      if sp.isEmpty then none else
      match r2.dropWhile isSpaceCh with
      | [] => none
      | c2 :: r4 =>
        if isAsciiUp c2 then
          let w2 := r4.takeWhile isNameLow
          if w2.isEmpty then none
          else some (c1 :: w1 ++ sp ++ c2 :: w2, r4.dropWhile isNameLow)
        else none
    else none

/-- Name pattern 2 at one position: the strict capture, then `[,\s]*$`. -/
def name2At (cs : Chars) : Option Chars :=
  match capPairStrict cs with
  | none => none
  | some (cap, rest) =>
    if (rest.dropWhile (fun c => c = ',' || isSpaceCh c)).isEmpty
    then some cap else none

/-- Search for `name_near_address` over `before_address`. -/
def name2Search : Chars → Option Chars
  | [] => none
  | c :: cs =>
    match name2At (c :: cs) with
    | some n => some n
    | none => name2Search cs

/-- The blacklist applied to `potential_name.split()[0]`. -/
def blacklist2 : List Chars :=
  ["Votre".data, "Donner".data, "Merci".data, "Complet".data]

/-- Model of `potential_name.split()[0]` (the name starts with a letter). -/
def firstWord (cs : Chars) : Chars := cs.takeWhile (fun c => !isSpaceCh c)

/-- The whole pattern-2 branch: only runs when an address was stored, looks
at the ≤100 characters before the address's first occurrence, and rejects
blacklisted first tokens (returning `none` lets pattern 3 run, as in the
source where `client_name` is then still empty). -/
def name2Full (ft : Chars) : Option Chars :=
  match searchAddress ft with
  | none => none
  | some a =>
    let addr := stripChars a
    match findSub addr ft with
    | none => none
    | some p =>
      if 0 < p then
        match name2Search ((ft.take p).drop (p - 100)) with
        | none => none
        | some nm =>
          let nm' := stripChars nm
          if blacklist2.contains (firstWord nm') then none else some nm'
      else none

/-- Name pattern 3 at one position:
`\b([A-Z][a-zéèêàâôùûîïç]+)\s+([A-Z][a-zéèêàâôùûîïç]+)\b` (no flags).
`prev` is the character before the position (for the leading `\b`); the
trailing `\b` requires a non-word character or the end after the second
word's maximal run (shrinking the greedy runs cannot help, since every
shrunk follow position holds a word character). -/
def name3At (prev : Option Char) (cs : Chars) :
    Option ((Chars × Chars) × Option Char × Chars) :=
  if (match prev with | some c => isWordCh c | none => false) then none else
  match cs with
  | [] => none
  | c1 :: r1 =>
    if isAsciiUp c1 then
      let w1 := r1.takeWhile isNameLow
      if w1.isEmpty then none else
      let r2 := r1.dropWhile isNameLow
      let sp := r2.takeWhile isSpaceCh
      if sp.isEmpty then none else
      match r2.dropWhile isSpaceCh with
      | [] => none
      | c2 :: r4 =>
        if isAsciiUp c2 then
          let w2 := r4.takeWhile isNameLow
          if w2.isEmpty then none else
          let r5 := r4.dropWhile isNameLow
          if (match r5 with | [] => true | d :: _ => !isWordCh d) then
            some ((c1 :: w1, c2 :: w2), some ((c2 :: w2).getLastD c2), r5)
          else none
        else none
    else none

/-- Model of `re.findall(name_pattern, full_text)`. -/
def name3FindAll (ft : Chars) : List (Chars × Chars) := findAllPrev name3At ft

/-- The `excluded_words` set of pattern 3. -/
def excludedWords : List Chars :=
  ["Today".data, "Bonjour".data, "Pour".data, "Tel".data, "Nom".data,
   "Adresse".data, "Prix".data, "Total".data, "Date".data, "Commander".data,
   "Commande".data, "Merci".data, "Parfait".data, "Service".data,
   "Votre".data, "Donner".data, "Pouvez".data, "Combien".data,
   "Quelle".data, "Couleur".data]

def headUpper (cs : Chars) : Bool :=
  match cs with
  | [] => false
  | c :: _ => isAsciiUp c

/-- The first-qualifying-pair loop over the pattern-3 matches. -/
def name3Pick : List (Chars × Chars) → Option Chars
  | [] => none
  | (f, l) :: rest =>
    if !excludedWords.contains f && !excludedWords.contains l &&
       4 ≤ f.length && 4 ≤ l.length && headUpper f && headUpper l
    then some (f ++ ' ' :: l)
    else name3Pick rest

def name3Stage (ft : Chars) : Chars :=
  match name3Pick (name3FindAll ft) with
  | some n => n
  | none => []

/-- The client name before the `"Client"` default: pattern 1, else the
address-proximity pattern 2, else pattern 3 (empty when everything failed). -/
def clientNameROf (ft : Chars) : Chars :=
  match name1Search ft with
  | some n => stripChars n
  | none =>
    match name2Full ft with
    | some nm => nm
    | none => name3Stage ft

def clientNameOf (ft : Chars) : Chars :=
  if clientNameROf ft = [] then "Client".data else clientNameROf ft

def clientAddressOf (ft : Chars) : Chars :=
  match searchAddress ft with
  | some a => stripChars a
  | none => []

/-! ### iPhone items

The source pattern `iphone_pattern` is `(\d+)\s*i[Pp]hone[s]?\s*(\d\x7b0,2\x7d)?`
with `re.findall` and `re.IGNORECASE`: a quantity is mandatory, the model
number is at most two digits. -/

/-- Optional model number `(\d\x7b0,2\x7d)?`: up to two digits, greedy. -/
def takeUpTo2Digits (cs : Chars) : Chars × Chars :=
  match cs with
  | a :: b :: r =>
    if isDigitCh a then
      if isDigitCh b then ([a, b], r) else ([a], b :: r)
    else ([], cs)
  | [a] => if isDigitCh a then ([a], []) else ([], [a])
  | [] => ([], [])

/-- One position of the iPhone pattern; payload = (quantity digits, model
digits). -/
def iphoneAt (cs : Chars) : Option ((Chars × Chars) × Chars) :=
  let d1 := cs.takeWhile isDigitCh
  if d1.isEmpty then none else
  let r1 := (cs.dropWhile isDigitCh).dropWhile isSpaceCh
  match matchCI "iphone".data r1 with
  | none => none
  | some r3 =>
    let r4 := match r3 with
              | c :: t => if lowerFr c = 's' then t else r3
              | [] => r3
    let r5 := r4.dropWhile isSpaceCh
    let (ds, r6) := takeUpTo2Digits r5
    some ((d1, ds), r6)

def iphoneFindAll (ft : Chars) : List (Chars × Chars) := findAllL iphoneAt ft

/-- Key of an item group: the word iPhone, a space and the model digits, the
whole stripped (as the source formats and strips it). -/
def iphoneKey (m : Chars) : Chars := stripChars ("iPhone ".data ++ m)

/-- The `quantities` dict: insertion-ordered association list,
`quantities[key] += qty`. -/
def addQty : List (Chars × Nat) → Chars → Nat → List (Chars × Nat)
  | [], k, q => [(k, q)]
  | (k', q') :: rest, k, q =>
    if k' = k then (k', q' + q) :: rest else (k', q') :: addQty rest k q

def groupQty (l : List (Chars × Chars)) : List (Chars × Nat) :=
  l.foldl (fun acc p => addQty acc (iphoneKey p.2) (natOfDigits p.1)) []

/-- Monetary amounts are integer cents. -/
abbrev Cents := Int

/-- Amount of `n` euros in cents (for readable statements). -/
def euros (n : Int) : Cents := 100 * n

/-- Constant `UNIT_PRICE = 250.0`, in cents. -/
def UNIT_PRICE : Cents := euros 250

structure LineItem where
  description : String
  quantity : Nat
  unit_price : Cents
  total : Cents
deriving Repr, DecidableEq

def mkItem (kv : Chars × Nat) : LineItem :=
  ⟨String.mk kv.1, kv.2, UNIT_PRICE, (kv.2 : Int) * UNIT_PRICE⟩

def itemsFromIphone (ft : Chars) : List LineItem :=
  (groupQty (iphoneFindAll ft)).map mkItem

/-- The running `total_amount` after the iPhone pass. -/
def baseTotal (ft : Chars) : Cents :=
  ((itemsFromIphone ft).map LineItem.total).sum

/-! ### Explicit invoice total

The two `total_patterns` are
`(?:total|prix\s*total|montant\s*total)[:\s]*(\d+(?:[.,]\d\x7b2\x7d)?)\s*[€$]` and
`(\d+(?:[.,]\d\x7b2\x7d)?)\s*[€$](?:\s*total)?`,
searched in order with `re.IGNORECASE`; after the comma-to-period
replacement, `float` never raises on the captured shapes. -/

/-- Value of a captured decimal (digits with an optional two-decimal part) after the
comma-to-period replacement and `float(...)`, in cents. -/
def centsVal (d1 : Chars) : Option (Char × Char) → Cents
  | some (a, b) => (natOfDigits d1 : Int) * 100 + (natOfDigits [a, b] : Int)
  | none => (natOfDigits d1 : Int) * 100

/-- Decimal-and-currency tail at one position.  Shrinking `\d+` never
helps (a digit can stand neither where `[.,]` nor where `[€$]` is needed),
so only the two optional-group alternatives are tried. -/
def decimalCurrencyAt (cs : Chars) : Option (Cents × Chars) :=
  let d1 := cs.takeWhile isDigitCh
  if d1.isEmpty then none else
  let r1 := cs.dropWhile isDigitCh
  let tryTail := fun (v : Cents) (r : Chars) =>
    match r.dropWhile isSpaceCh with
    | c :: r3 => if c = '€' || c = '$' then some (v, r3) else none
    | [] => none
  match r1 with
  | p :: a :: b :: r2 =>
    if (p = '.' || p = ',') && isDigitCh a && isDigitCh b then
      match tryTail (centsVal d1 (some (a, b))) r2 with
      | some x => some x
      | none => tryTail (centsVal d1 none) r1
    else tryTail (centsVal d1 none) r1
  | _ => tryTail (centsVal d1 none) r1

/-- Labels `(?:total|prix\s*total|montant\s*total)`: ordered alternation; the
alternatives start with distinct letters, so at most one applies per
position. -/
def totalLabelTok (cs : Chars) : Option Chars :=
  match matchCI "total".data cs with
  | some r => some r
  | none =>
    match matchCI "prix".data cs with
    | some r =>
      match matchCI "total".data (r.dropWhile isSpaceCh) with
      | some r' => some r'
      | none => none
    | none =>
      match matchCI "montant".data cs with
      | some r =>
        match matchCI "total".data (r.dropWhile isSpaceCh) with
        | some r' => some r'
        | none => none
      | none => none

/-- Tier 1 at one position: label, `[:\s]*`, then the decimal/currency. -/
def tier1At (cs : Chars) : Option Cents :=
  match totalLabelTok cs with
  | none => none
  | some r1 =>
    match decimalCurrencyAt (r1.dropWhile (fun c => c = ':' || isSpaceCh c)) with
    | some (v, _) => some v
    | none => none

/-- Tier 2 at one position (the trailing `(?:\s*total)?` affects neither
success nor the group). -/
def tier2At (cs : Chars) : Option Cents :=
  match decimalCurrencyAt cs with
  | some (v, _) => some v
  | none => none

/-- The `extracted_total` loop: first tier that matches wins. -/
def extractTotal (ft : Chars) : Option Cents :=
  match searchO tier1At ft with
  | some v => some v
  | none => searchO tier2At ft

/-- Python `round(a / b)` (round half to even) computed exactly on the
integer quotient, composed with `int(...)`; `b` is positive at every call
site. -/
def pyRoundDiv (a b : Int) : Int :=
  let q := Int.fdiv a b
  let r := a - q * b
  if 2 * r < b then q
  else if b < 2 * r then q + 1
  else if q % 2 = 0 then q else q + 1

/-- The total-override block: `if extracted_total and items_found:` (Python
truthiness: `None` and `0.0` are falsy), set `total_amount` to the explicit
total, and when it disagrees with `sum(quantities) * UNIT_PRICE` by more
than `0.01`, rewrite the first item's quantity and total — but only when
the recomputed quantity is positive.  `0.01` currency units is one cent,
so the disagreement test is `1 < |expected - extracted|` in cents. -/
def applyOverride (et : Option Cents) (items : List LineItem) (tot : Cents) :
    List LineItem × Cents :=
  match et, items with
  | some T, it :: rest =>
    if T = 0 then (it :: rest, tot)
    else
      let sumQ : Int := ((it :: rest).map fun i => (i.quantity : Int)).sum
      if 1 < (sumQ * UNIT_PRICE - T).natAbs then
        let cq := pyRoundDiv T UNIT_PRICE
        if 0 < cq then
          ({ it with quantity := cq.toNat, total := T } :: rest, T)
        else (it :: rest, T)
      else (it :: rest, T)
  | _, _ => (items, tot)

def overrideStage (ft : Chars) : List LineItem × Cents :=
  applyOverride (extractTotal ft) (itemsFromIphone ft) (baseTotal ft)

/-! ### Colors

The source pattern `color_pattern` is `(\d+)?\s*(noir|blanc|rouge|rose|bleu|vert)s?`
with `re.findall` and `re.IGNORECASE`.  The optional digit group is tried
greedily; when it is taken and the color fails, the empty alternative also
fails (a digit can start neither `\s*` progress nor a color word), so one
attempt per shape suffices. -/

def colorTokens : List Chars :=
  ["noir".data, "blanc".data, "rouge".data, "rose".data, "bleu".data, "vert".data]

/-- One position of the color pattern; payload = (digits, color word as
written in the text). -/
def colorAt (cs : Chars) : Option ((Chars × Chars) × Chars) :=
  let d1 := cs.takeWhile isDigitCh
  let attempt := fun (ds : Chars) (r : Chars) =>
    match firstTok colorTokens (r.dropWhile isSpaceCh) with
    | some (col, r3) =>
      let r4 := match r3 with
                | c :: t => if lowerFr c = 's' then t else r3
                | [] => r3
      some ((ds, col), r4)
    | none => none
  match d1 with
  | [] => attempt [] cs
  | _ :: _ => attempt d1 (cs.dropWhile isDigitCh)

def colorFindAll (ft : Chars) : List (Chars × Chars) := findAllL colorAt ft

/-- Formatting of one color mention: the digits, a space and the color word
when the digit group is non-empty, else the color word alone. -/
def colorFmt (p : Chars × Chars) : Chars :=
  if p.1.isEmpty then p.2 else p.1 ++ ' ' :: p.2

/-- Annotation appended to the first description: a space, an opening
parenthesis, the color mentions joined by comma-space, and a closing
parenthesis. -/
def colorAnnot (ft : Chars) : Chars :=
  match colorFindAll ft with
  | [] => []
  | l => " (".data ++ List.intercalate ", ".data (l.map colorFmt) ++ ")".data

/-- The color pass: `if color_matches and items_found:` append the joined
color list to the first item's description. -/
def colorPass (ft : Chars) (items : List LineItem) : List LineItem :=
  match items, colorFindAll ft with
  | it :: rest, _ :: _ =>
    { it with description := it.description ++ String.mk (colorAnnot ft) } :: rest
  | _, _ => items

/-! ### Fallbacks and assembly -/

/-- Pattern `general_price_pattern`: the labels `(?:prix|price|montant)`,
then `[:\s]*` and the decimal-and-currency tail.  The labels prix and price
share the first three letters but diverge before either completes, so
ordered first-match is exact. -/
def genericAt (cs : Chars) : Option Cents :=
  let afterLabel :=
    match matchCI "prix".data cs with
    | some r => some r
    | none =>
      match matchCI "price".data cs with
      | some r => some r
      | none => matchCI "montant".data cs
  match afterLabel with
  | none => none
  | some r1 =>
    match decimalCurrencyAt (r1.dropWhile (fun c => c = ':' || isSpaceCh c)) with
    | some (v, _) => some v
    | none => none

def genericPrice (ft : Chars) : Option Cents := searchO genericAt ft

def placeholderItem : LineItem := ⟨"Service / Prestation", 1, 0, 0⟩

def serviceItem (p : Cents) : LineItem := ⟨"Service / Produit", 1, p, p⟩

/-- Items, total and invoice-level description after the fallback block:
when nothing survived, try the labeled generic price, else emit the
placeholder and copy the first 500 characters of the raw text into the
record's description. -/
def finalStage (ft : Chars) (text : String) : List LineItem × Cents × String :=
  match colorPass ft (overrideStage ft).1 with
  | [] =>
    match genericPrice ft with
    | some p => ([serviceItem p], p, "")
    | none => ([placeholderItem], ((overrideStage ft).2, String.mk (text.data.take 500)))
  | it :: rest => (it :: rest, ((overrideStage ft).2, ""))

/-- The two timestamp-derived fields (`datetime.now()` reads). -/
structure Stamp where
  date : String
  number : String

structure InvoiceRecord where
  client_name : String
  client_address : String
  date : String
  invoice_number : String
  items : List LineItem
  total : Cents
  description : String
deriving Repr, DecidableEq

/-- The embedded `interpret_invoice_data_regex`. -/
def interpret_invoice_data_regex (st : Stamp) (text : String) : InvoiceRecord :=
  { client_name := String.mk (clientNameOf (mkFullText text)),
    client_address := String.mk (clientAddressOf (mkFullText text)),
    date := st.date,
    invoice_number := st.number,
    items := (finalStage (mkFullText text) text).1,
    total := (finalStage (mkFullText text) text).2.1,
    description := (finalStage (mkFullText text) text).2.2 }

/-- A fixed timestamp for concrete evaluations. -/
def stamp0 : Stamp := ⟨"01/01/2025", "INV-20250101000000"⟩

/-- Address pattern as the specification words it: a street-designator token
from the closed set, followed by free text, a comma, a 5-digit postal code
and a city name — with no leading house number.  This definition follows the
spec's words only, for comparison against the source pattern `addressAt`
(which additionally demands `\d+\s+` before the street token). -/
def specAddressAt (cs : Chars) : Option Chars :=
  match firstTok streetTokens cs with
  | none => none
  | some (_, r3) =>
    let body := r3.takeWhile (fun c => !(c = ',' || c = '\n'))
    if body.isEmpty then none else
    match r3.dropWhile (fun c => !(c = ',' || c = '\n')) with
    | ',' :: r5 =>
      match fiveDigits (r5.dropWhile isSpaceCh) with
      | none => none
      | some r7 =>
        let s2 := r7.takeWhile isSpaceCh
        if s2.isEmpty then none else
        let r8 := r7.dropWhile isSpaceCh
        let city := r8.takeWhile isNameCharCI
        if city.isEmpty then none else some (r8.dropWhile isNameCharCI)
    | _ => none

/-- Failing input for the never-raises claim: a 310-digit stated quantity
followed by the word iphone.  The source parses the quantity with
unbounded `int`, then computes `qty * UNIT_PRICE` with the float 250.0,
and the int-to-float conversion raises an uncaught OverflowError for
integers beyond the largest double. -/
def overflowInput : String := String.mk (List.replicate 310 '9' ++ " iphone".data)

/-! ### Helper lemmas -/

theorem applyOverride_none (items : List LineItem) (tot : Cents) :
    applyOverride none items tot = (items, tot) := by
  cases items <;> rfl

theorem applyOverride_zero (items : List LineItem) (tot : Cents) :
    applyOverride (some 0) items tot = (items, tot) := by
  cases items with
  | nil => rfl
  | cons it rest => simp [applyOverride]

theorem applyOverride_nil (et : Option Cents) (tot : Cents) :
    applyOverride et [] tot = ([], tot) := by
  cases et <;> rfl

theorem applyOverride_snd (T : Cents) (items : List LineItem) (tot : Cents)
    (hT : T ≠ 0) (hi : items ≠ []) :
    (applyOverride (some T) items tot).2 = T := by
  cases items with
  | nil => exact absurd rfl hi
  | cons it rest =>
    simp only [applyOverride, if_neg hT]
    split
    · split <;> rfl
    · rfl

theorem colorPass_ne_nil (ft : Chars) (items : List LineItem) (h : items ≠ []) :
    colorPass ft items ≠ [] := by
  cases items with
  | nil => exact absurd rfl h
  | cons it rest => cases h2 : colorFindAll ft <;> simp [colorPass, h2]

theorem colorPass_nil (ft : Chars) : colorPass ft [] = [] := by
  cases h : colorFindAll ft <;> simp [colorPass, h]

theorem colorPass_map_quantity (ft : Chars) (items : List LineItem) :
    (colorPass ft items).map LineItem.quantity = items.map LineItem.quantity := by
  cases items <;> cases h : colorFindAll ft <;> simp [colorPass, h]

theorem colorPass_map_total (ft : Chars) (items : List LineItem) :
    (colorPass ft items).map LineItem.total = items.map LineItem.total := by
  cases items <;> cases h : colorFindAll ft <;> simp [colorPass, h]

theorem colorPass_map_qt (ft : Chars) (items : List LineItem) :
    (colorPass ft items).map (fun it => (it.quantity, it.total)) =
      items.map (fun it => (it.quantity, it.total)) := by
  cases items <;> cases h : colorFindAll ft <;> simp [colorPass, h]

theorem finalStage_ne_nil (ft : Chars) (text : String) :
    (finalStage ft text).1 ≠ [] := by
  unfold finalStage
  cases h : colorPass ft (overrideStage ft).1 with
  | nil => cases hg : genericPrice ft <;> simp
  | cons it rest => simp

theorem clientNameOf_ne_nil (ft : Chars) : clientNameOf ft ≠ [] := by
  unfold clientNameOf
  split
  · decide
  · assumption

theorem mk_ne_empty {l : Chars} (h : l ≠ []) : String.mk l ≠ "" := by
  intro he
  exact h (congrArg String.data he)

theorem addQty_pos (acc : List (Chars × Nat)) (k : Chars) (q : Nat)
    (hacc : ∀ kv ∈ acc, 0 < kv.2) (hq : 0 < q) :
    ∀ kv ∈ addQty acc k q, 0 < kv.2 := by
  induction acc with
  | nil => intro kv hm; simp [addQty] at hm; subst hm; exact hq
  | cons p rest ih =>
    intro kv hm
    simp only [addQty] at hm
    split at hm
    · rcases List.mem_cons.mp hm with h | h
      · subst h; exact Nat.lt_of_lt_of_le (hacc p (List.mem_cons_self ..)) (Nat.le_add_right ..)
      · exact hacc _ (List.mem_cons_of_mem _ h)
    · rcases List.mem_cons.mp hm with h | h
      · subst h; exact hacc p (List.mem_cons_self ..)
      · exact ih (fun kv hkv => hacc kv (List.mem_cons_of_mem _ hkv)) kv h

theorem groupQty_fold_pos (l : List (Chars × Chars)) :
    ∀ acc : List (Chars × Nat), (∀ p ∈ l, 0 < natOfDigits p.1) →
      (∀ kv ∈ acc, 0 < kv.2) →
      ∀ kv ∈ l.foldl (fun acc p => addQty acc (iphoneKey p.2) (natOfDigits p.1)) acc,
        0 < kv.2 := by
  induction l with
  | nil => intro acc _ hacc kv hm; exact hacc kv hm
  | cons p rest ih =>
    intro acc hl hacc kv hm
    exact ih (addQty acc (iphoneKey p.2) (natOfDigits p.1))
      (fun x hx => hl x (List.mem_cons_of_mem _ hx))
      (addQty_pos acc _ _ hacc (hl p (List.mem_cons_self ..)))
      kv hm

theorem groupQty_pos (l : List (Chars × Chars))
    (hl : ∀ p ∈ l, 0 < natOfDigits p.1) :
    ∀ kv ∈ groupQty l, 0 < kv.2 :=
  groupQty_fold_pos l [] hl (by intro kv h; cases h)

theorem applyOverride_ne_nil (et : Option Cents) (items : List LineItem)
    (tot : Cents) (h : items ≠ []) : (applyOverride et items tot).1 ≠ [] := by
  cases et with
  | none => rw [applyOverride_none]; exact h
  | some T =>
    cases items with
    | nil => exact absurd rfl h
    | cons it rest =>
      simp only [applyOverride]
      split
      · simp
      · split
        · split <;> simp
        · simp

theorem applyOverride_quantity (et : Option Cents) (items : List LineItem)
    (tot : Cents) (h : ∀ it ∈ items, 1 ≤ it.quantity) :
    ∀ it ∈ (applyOverride et items tot).1, 1 ≤ it.quantity := by
  cases et with
  | none => rw [applyOverride_none]; exact h
  | some T =>
    cases items with
    | nil => rw [applyOverride_nil]; exact h
    | cons it rest =>
      simp only [applyOverride]
      split
      · exact h
      · split
        · split
          · intro x hx
            rcases List.mem_cons.mp hx with hx | hx
            · subst hx
              simp only
              omega
            · exact h x (List.mem_cons_of_mem _ hx)
          · exact h
        · exact h

/-! ### Claims -/

/-- C6 (amended): the client address is produced only by the address
pattern (which requires a leading house number `\d+\s+` before the street
token); for every input on which that pattern finds no match, the client
address is the empty string — never inferred or fabricated. -/
theorem C6_no_pattern_empty_address (st : Stamp) (t : String)
    (h : searchAddress (mkFullText t) = none) :
    (interpret_invoice_data_regex st t).client_address = "" := by
  show String.mk (clientAddressOf (mkFullText t)) = ""
  simp [clientAddressOf, h]

/-- Witness for C6: a concrete input with no street/postal pattern gets an
empty address. -/
theorem C6_witness :
    searchAddress (mkFullText "bonjour") = none ∧
      (interpret_invoice_data_regex stamp0 "bonjour").client_address = "" :=
  ⟨by decide, C6_no_pattern_empty_address stamp0 "bonjour" (by decide)⟩

/-- Counterexample for C6 as stated: "rue Victor, 75000 Paris" matches the
spec's description of the pattern (street token, free text, comma, 5-digit
postal code, city — no house number mentioned), yet the source pattern
requires a leading number, so the extractor leaves the address empty. -/
theorem C6_counterexample :
    (searchO specAddressAt (mkFullText "rue Victor, 75000 Paris")).isSome = true ∧
      (interpret_invoice_data_regex stamp0 "rue Victor, 75000 Paris").client_address = "" :=
  ⟨by decide, by decide⟩

/-- C7 (amended): the client name is computed by three ordered strategies
(label match — which runs under IGNORECASE and therefore does not actually
require capitalization —, address proximity with blacklist, whole-corpus
capitalized pair with extended blacklist); when all three fail, the name is
the literal "Client". -/
theorem C7_strategies_fail_default (st : Stamp) (t : String)
    (h1 : name1Search (mkFullText t) = none)
    (h2 : name2Full (mkFullText t) = none)
    (h3 : name3Pick (name3FindAll (mkFullText t)) = none) :
    (interpret_invoice_data_regex st t).client_name = "Client" := by
  show String.mk (clientNameOf (mkFullText t)) = "Client"
  simp [clientNameOf, clientNameROf, name3Stage, h1, h2, h3]

/-- Witness for C7: on "bonjour" all three strategies fail and the name is
"Client". -/
theorem C7_witness :
    name1Search (mkFullText "bonjour") = none ∧
      name2Full (mkFullText "bonjour") = none ∧
      name3Pick (name3FindAll (mkFullText "bonjour")) = none ∧
      (interpret_invoice_data_regex stamp0 "bonjour").client_name = "Client" :=
  ⟨by decide, by decide, by decide,
    C7_strategies_fail_default stamp0 "bonjour" (by decide) (by decide) (by decide)⟩

/-- Counterexample for C7 as stated: "nom: jean dupont" contains no
capitalized word at all, yet the label strategy (case-insensitive in the
source) extracts "jean dupont", so the name is not "Client". -/
theorem C7_counterexample :
    ("nom: jean dupont".data.all fun c => !(isAsciiUp c || accentedUp c)) = true ∧
      (interpret_invoice_data_regex stamp0 "nom: jean dupont").client_name = "jean dupont" :=
  ⟨by decide, by decide⟩

set_option maxRecDepth 100000 in
/-- C8: the never-raises claim fails on the source.  At `overflowInput`
the stated quantity parses to the 310-digit integer consisting of 310
nines, shown here to exceed `2 ^ 1024` — the least power of two beyond
the largest IEEE double — so the source's `qty * UNIT_PRICE` (line 331)
converts it to float and raises an uncaught OverflowError instead of
returning a record; the embedding's unbounded exact integers collapse
that error path and return this quantity. -/
theorem C8_overflow_at_failing_input :
    (interpret_invoice_data_regex stamp0 overflowInput).items.map LineItem.quantity
      = [((10 : Nat) ^ 155) ^ 2 - 1] ∧
      ((2 : Nat) ^ 256) ^ 4 < ((10 : Nat) ^ 155) ^ 2 - 1 :=
  ⟨by decide, by decide⟩

/-- C9: the data fields of the result (name, address, items, total) do not
depend on the timestamp-derived fields: two runs on the same text agree on
all of them. -/
theorem C9_deterministic (st1 st2 : Stamp) (t : String) :
    (interpret_invoice_data_regex st1 t).client_name =
        (interpret_invoice_data_regex st2 t).client_name ∧
      (interpret_invoice_data_regex st1 t).client_address =
        (interpret_invoice_data_regex st2 t).client_address ∧
      (interpret_invoice_data_regex st1 t).items =
        (interpret_invoice_data_regex st2 t).items ∧
      (interpret_invoice_data_regex st1 t).total =
        (interpret_invoice_data_regex st2 t).total :=
  ⟨rfl, rfl, rfl, rfl⟩

/-- C2 (amended): the iPhone pattern requires an explicit leading quantity;
when it finds no match at all, the result is a single fallback item
(labeled generic price or placeholder) of quantity 1 — color counts are
never summed into a quantity. -/
theorem C2_no_iphone_match_fallback (st : Stamp) (t : String)
    (h : iphoneFindAll (mkFullText t) = []) :
    (interpret_invoice_data_regex st t).items.map LineItem.quantity = [1] := by
  have hi : itemsFromIphone (mkFullText t) = [] := by
    simp [itemsFromIphone, groupQty, h]
  have hov : (overrideStage (mkFullText t)).1 = [] := by
    simp [overrideStage, hi, applyOverride_nil]
  have hcp : colorPass (mkFullText t) (overrideStage (mkFullText t)).1 = [] := by
    rw [hov, colorPass_nil]
  show ((finalStage (mkFullText t) t).1).map LineItem.quantity = [1]
  unfold finalStage
  rw [hcp]
  cases hg : genericPrice (mkFullText t) <;> simp [placeholderItem, serviceItem]

/-- Witness for C2 (amended), at the spec's own example input. -/
theorem C2_witness :
    iphoneFindAll (mkFullText "iPhone 14 (noir x2, blanc x1)") = [] ∧
      (interpret_invoice_data_regex stamp0 "iPhone 14 (noir x2, blanc x1)").items.map
          LineItem.quantity = [1] :=
  ⟨by decide, C2_no_iphone_match_fallback stamp0 "iPhone 14 (noir x2, blanc x1)" (by decide)⟩

/-- Counterexample for C2 as stated: on "iPhone 14 (noir x2, blanc x1)" the
claim demands quantity 3 (sum of the numbered colors), but the extractor
finds no iPhone item (no leading quantity digit) and emits the placeholder
item of quantity 1. -/
theorem C2_counterexample :
    (interpret_invoice_data_regex stamp0 "iPhone 14 (noir x2, blanc x1)").items.map
        (fun it => (it.description, it.quantity)) = [("Service / Prestation", 1)] := by
  decide

/-- C5 (amended): for any input all of whose iPhone matches state a positive
quantity, the item list is non-empty and every item has quantity ≥ 1 (the
`total` field is always populated by construction).  The positivity proviso
is needed because an explicit "0 iphone" is accepted by the source and
yields a zero-quantity item. -/
theorem C5_items_invariant (st : Stamp) (t : String)
    (h : ∀ p ∈ iphoneFindAll (mkFullText t), 0 < natOfDigits p.1) :
    (interpret_invoice_data_regex st t).items ≠ [] ∧
      ∀ q ∈ (interpret_invoice_data_regex st t).items.map LineItem.quantity, 1 ≤ q := by
  refine ⟨(finalStage_ne_nil (mkFullText t) t : (finalStage (mkFullText t) t).1 ≠ []), ?_⟩
  have h0 : ∀ it ∈ itemsFromIphone (mkFullText t), 1 ≤ it.quantity := by
    intro it hit
    simp only [itemsFromIphone, List.mem_map] at hit
    obtain ⟨kv, hkv, rfl⟩ := hit
    exact groupQty_pos _ h kv hkv
  have h1 : ∀ it ∈ (overrideStage (mkFullText t)).1, 1 ≤ it.quantity :=
    applyOverride_quantity _ _ _ h0
  show ∀ q ∈ ((finalStage (mkFullText t) t).1).map LineItem.quantity, 1 ≤ q
  unfold finalStage
  cases hcp : colorPass (mkFullText t) (overrideStage (mkFullText t)).1 with
  | nil => cases hg : genericPrice (mkFullText t) <;> simp [placeholderItem, serviceItem]
  | cons a l =>
    simp only
    intro q hq
    have hm : (a :: l).map LineItem.quantity =
        ((overrideStage (mkFullText t)).1).map LineItem.quantity := by
      rw [← hcp, colorPass_map_quantity]
    rw [hm] at hq
    obtain ⟨it, hit, rfl⟩ := List.mem_map.mp hq
    exact h1 it hit

/-- Witness for C5 (amended). -/
theorem C5_witness :
    (∀ p ∈ iphoneFindAll (mkFullText "2 iphone"), 0 < natOfDigits p.1) ∧
      ((interpret_invoice_data_regex stamp0 "2 iphone").items ≠ [] ∧
        ∀ q ∈ (interpret_invoice_data_regex stamp0 "2 iphone").items.map
            LineItem.quantity, 1 ≤ q) :=
  ⟨by decide, C5_items_invariant stamp0 "2 iphone" (by decide)⟩

/-- Counterexample for C5 as stated: the non-blank input "0 iphone" yields
an item of quantity 0, violating the claimed `quantity ≥ 1` invariant. -/
theorem C5_counterexample :
    (interpret_invoice_data_regex stamp0 "0 iphone").items.map LineItem.quantity = [0] := by
  decide

/-- C10: when the item list reaching the color pass is non-empty and the
corpus has at least one color match, the collected color mentions are
appended, as one parenthesized comma-joined list, to the first item's
description only; the rest of the first item and all other items are
unchanged. -/
theorem C10_color_pass_frame (st : Stamp) (t : String) (it : LineItem)
    (rest : List LineItem) (c0 : Chars × Chars) (cl : List (Chars × Chars))
    (h1 : (overrideStage (mkFullText t)).1 = it :: rest)
    (h2 : colorFindAll (mkFullText t) = c0 :: cl) :
    (interpret_invoice_data_regex st t).items =
      { it with description :=
          it.description ++ String.mk (colorAnnot (mkFullText t)) } :: rest := by
  have hcp : colorPass (mkFullText t) (overrideStage (mkFullText t)).1 =
      { it with description :=
          it.description ++ String.mk (colorAnnot (mkFullText t)) } :: rest := by
    rw [h1]
    simp [colorPass, h2]
  show (finalStage (mkFullText t) t).1 = _
  unfold finalStage
  rw [hcp]

/-- Witness for C10 at "2 iphone noir". -/
theorem C10_witness :
    (overrideStage (mkFullText "2 iphone noir")).1 =
        [⟨"iPhone", 2, euros 250, euros 500⟩] ∧
      colorFindAll (mkFullText "2 iphone noir") = [([], "noir".data)] ∧
      (interpret_invoice_data_regex stamp0 "2 iphone noir").items =
        [{ (⟨"iPhone", 2, euros 250, euros 500⟩ : LineItem) with
            description := "iPhone" ++ String.mk (colorAnnot (mkFullText "2 iphone noir")) }] :=
  ⟨by decide, by decide,
    C10_color_pass_frame stamp0 "2 iphone noir" ⟨"iPhone", 2, euros 250, euros 500⟩
      [] ([], "noir".data) [] (by decide) (by decide)⟩

/-- C1: when a single iPhone mention with a stated global quantity Q is
found and no explicit currency total is present (colors carry no currency
symbol), the resulting item has quantity exactly Q — colors only extend the
description, they are never added to Q. -/
theorem C1_global_quantity_wins (st : Stamp) (t : String) (q m : Chars)
    (h1 : iphoneFindAll (mkFullText t) = [(q, m)])
    (h2 : extractTotal (mkFullText t) = none) :
    (interpret_invoice_data_regex st t).items =
      [⟨String.mk (iphoneKey m ++ colorAnnot (mkFullText t)), natOfDigits q,
        UNIT_PRICE, (natOfDigits q : Int) * UNIT_PRICE⟩] := by
  have hi : itemsFromIphone (mkFullText t) =
      [⟨String.mk (iphoneKey m), natOfDigits q, UNIT_PRICE,
        (natOfDigits q : Int) * UNIT_PRICE⟩] := by
    simp [itemsFromIphone, groupQty, h1, addQty, mkItem]
  have hov : (overrideStage (mkFullText t)).1 = itemsFromIphone (mkFullText t) := by
    unfold overrideStage
    rw [h2, applyOverride_none]
  show (finalStage (mkFullText t) t).1 = _
  unfold finalStage
  cases hc : colorFindAll (mkFullText t) with
  | nil =>
    have hcp : colorPass (mkFullText t) (overrideStage (mkFullText t)).1 =
        [⟨String.mk (iphoneKey m), natOfDigits q, UNIT_PRICE,
          (natOfDigits q : Int) * UNIT_PRICE⟩] := by
      rw [hov, hi]
      simp [colorPass, hc]
    rw [hcp]
    have ha : colorAnnot (mkFullText t) = [] := by simp [colorAnnot, hc]
    rw [ha, List.append_nil]
  | cons c0 cl =>
    have hcp : colorPass (mkFullText t) (overrideStage (mkFullText t)).1 =
        [⟨String.mk (iphoneKey m) ++ String.mk (colorAnnot (mkFullText t)),
          natOfDigits q, UNIT_PRICE, (natOfDigits q : Int) * UNIT_PRICE⟩] := by
      rw [hov, hi]
      simp [colorPass, hc]
    rw [hcp]
    rfl

/-- Witness for C1 at the spec's quantity-ceiling example: quantity 2,
never 3, with the noir/blanc split annotated in the description. -/
theorem C1_witness :
    iphoneFindAll (mkFullText "2 iPhone 14, couleurs: noir, 1 blanc") =
        [("2".data, "14".data)] ∧
      extractTotal (mkFullText "2 iPhone 14, couleurs: noir, 1 blanc") = none ∧
      (interpret_invoice_data_regex stamp0 "2 iPhone 14, couleurs: noir, 1 blanc").items =
        [⟨"iPhone 14 (noir, 1 blanc)", 2, euros 250, euros 500⟩] := by
  refine ⟨by decide, by decide, ?_⟩
  rw [C1_global_quantity_wins stamp0 "2 iPhone 14, couleurs: noir, 1 blanc"
    "2".data "14".data (by decide) (by decide)]
  decide

/-- C3 (amended): when an explicit nonzero total is found together with at
least one iPhone item and it disagrees with the itemization by more than
one cent, the total is authoritative and the first item is rewritten to
quantity `round(total/250)` and total `total` — but only when that rounded
quantity is positive; when it rounds to 0 the items are left unchanged and
only the invoice total is overwritten. -/
theorem C3_total_override (st : Stamp) (t : String) (T : Cents)
    (h1 : extractTotal (mkFullText t) = some T) (h2 : T ≠ 0)
    (h3 : itemsFromIphone (mkFullText t) ≠ [])
    (h4 : 1 < ((((itemsFromIphone (mkFullText t)).map fun i => (i.quantity : Int)).sum) *
        UNIT_PRICE - T).natAbs)
    (h5 : 0 < pyRoundDiv T UNIT_PRICE) :
    (interpret_invoice_data_regex st t).total = T ∧
      (interpret_invoice_data_regex st t).items.map (fun it => (it.quantity, it.total)) =
        ((pyRoundDiv T UNIT_PRICE).toNat, T) ::
          (itemsFromIphone (mkFullText t)).tail.map (fun it => (it.quantity, it.total)) := by
  obtain ⟨it, rest, hitems⟩ : ∃ it rest, itemsFromIphone (mkFullText t) = it :: rest := by
    cases hx : itemsFromIphone (mkFullText t) with
    | nil => exact absurd hx h3
    | cons a l => exact ⟨a, l, rfl⟩
  rw [hitems] at h4
  have hov : overrideStage (mkFullText t) =
      ({ it with quantity := (pyRoundDiv T UNIT_PRICE).toNat, total := T } :: rest, T) := by
    unfold overrideStage
    rw [h1, hitems]
    simp only [applyOverride]
    rw [if_neg h2, if_pos h4, if_pos h5]
  have hcpne : colorPass (mkFullText t) (overrideStage (mkFullText t)).1 ≠ [] := by
    apply colorPass_ne_nil
    rw [hov]
    simp
  constructor
  · show (finalStage (mkFullText t) t).2.1 = T
    unfold finalStage
    cases hc : colorPass (mkFullText t) (overrideStage (mkFullText t)).1 with
    | nil => exact absurd hc hcpne
    | cons a l =>
      simp only
      rw [hov]
  · show ((finalStage (mkFullText t) t).1).map (fun it => (it.quantity, it.total)) = _
    unfold finalStage
    cases hc : colorPass (mkFullText t) (overrideStage (mkFullText t)).1 with
    | nil => exact absurd hc hcpne
    | cons a l =>
      simp only
      have hm : (a :: l).map (fun it => (it.quantity, it.total)) =
          ((overrideStage (mkFullText t)).1).map (fun it => (it.quantity, it.total)) := by
        rw [← hc, colorPass_map_qt]
      rw [hm, hov, hitems]
      simp

/-- Witness for C3 (amended) at the spec's example: a stated total of 750€
against one iPhone of quantity 1 becomes quantity 3 with item and invoice
total 750.00. -/
theorem C3_witness :
    extractTotal (mkFullText "1 iphone, total: 750€") = some (euros 750) ∧
      ((interpret_invoice_data_regex stamp0 "1 iphone, total: 750€").total = euros 750 ∧
        (interpret_invoice_data_regex stamp0 "1 iphone, total: 750€").items.map
            (fun it => (it.quantity, it.total)) =
          ((pyRoundDiv (euros 750) UNIT_PRICE).toNat, euros 750) ::
            (itemsFromIphone (mkFullText "1 iphone, total: 750€")).tail.map
              (fun it => (it.quantity, it.total))) :=
  ⟨by decide,
    C3_total_override stamp0 "1 iphone, total: 750€" (euros 750)
      (by decide) (by decide) (by decide) (by decide) (by decide)⟩

/-- Counterexample for C3 as stated: on "2 iphone, total: 50€" the claim's
"minimum of 1" rule demands first-item quantity 1 and item total 50.00, but
the source skips the rewrite entirely when `round(total/250)` is 0: the
item keeps quantity 2 and total 500.00 while the invoice total becomes
50.00. -/
theorem C3_counterexample :
    extractTotal (mkFullText "2 iphone, total: 50€") = some (euros 50) ∧
      (interpret_invoice_data_regex stamp0 "2 iphone, total: 50€").items.map
          (fun it => (it.quantity, it.total)) = [(2, euros 500)] ∧
      (interpret_invoice_data_regex stamp0 "2 iphone, total: 50€").total = euros 50 :=
  ⟨by decide, by decide, by decide⟩

/-- C4 (amended): the invoice total equals the source-declared total
whenever one was found, it is nonzero, and at least one iPhone item was
extracted; in every other case (no declared total, a declared total of
zero, or no iPhone items) it equals the sum of the item totals. -/
theorem C4_invoice_total (st : Stamp) (t : String) :
    (∀ T, extractTotal (mkFullText t) = some T → T ≠ 0 →
        itemsFromIphone (mkFullText t) ≠ [] →
        (interpret_invoice_data_regex st t).total = T) ∧
      ((extractTotal (mkFullText t) = none ∨ extractTotal (mkFullText t) = some 0 ∨
          itemsFromIphone (mkFullText t) = []) →
        (interpret_invoice_data_regex st t).total =
          ((interpret_invoice_data_regex st t).items.map LineItem.total).sum) := by
  constructor
  · intro T hT hT0 hne
    have hsnd : (overrideStage (mkFullText t)).2 = T := by
      unfold overrideStage
      rw [hT]
      exact applyOverride_snd T _ _ hT0 hne
    have hfst : (overrideStage (mkFullText t)).1 ≠ [] := by
      unfold overrideStage
      exact applyOverride_ne_nil _ _ _ hne
    have hcpne := colorPass_ne_nil (mkFullText t) _ hfst
    show (finalStage (mkFullText t) t).2.1 = T
    unfold finalStage
    cases hc : colorPass (mkFullText t) (overrideStage (mkFullText t)).1 with
    | nil => exact absurd hc hcpne
    | cons a l =>
      simp only
      exact hsnd
  · intro hdisj
    have hov : overrideStage (mkFullText t) =
        (itemsFromIphone (mkFullText t), baseTotal (mkFullText t)) := by
      rcases hdisj with h | h | h
      · unfold overrideStage; rw [h, applyOverride_none]
      · unfold overrideStage; rw [h, applyOverride_zero]
      · unfold overrideStage; rw [h, applyOverride_nil]
    show (finalStage (mkFullText t) t).2.1 =
      (((finalStage (mkFullText t) t).1).map LineItem.total).sum
    unfold finalStage
    cases hc : colorPass (mkFullText t) (overrideStage (mkFullText t)).1 with
    | nil =>
      cases hg : genericPrice (mkFullText t) with
      | none =>
        simp only
        have hi0 : itemsFromIphone (mkFullText t) = [] := by
          by_contra hne2
          exact colorPass_ne_nil (mkFullText t) _ (by rw [hov]; exact hne2) hc
        rw [hov]
        simp [baseTotal, hi0, placeholderItem]
      | some p =>
        simp [serviceItem]
    | cons a l =>
      simp only
      have hsum : ((a :: l).map LineItem.total).sum =
          ((itemsFromIphone (mkFullText t)).map LineItem.total).sum := by
        rw [← hc, hov, colorPass_map_total]
      rw [hsum, hov]
      rfl

/-- Witness for C4 (amended): a declared 750€ total with an iPhone item
wins; without a declared total the sum of item totals is the invoice
total. -/
theorem C4_witness :
    (interpret_invoice_data_regex stamp0 "1 iphone, total: 750€").total = euros 750 ∧
      (interpret_invoice_data_regex stamp0 "2 iphone").total =
        ((interpret_invoice_data_regex stamp0 "2 iphone").items.map LineItem.total).sum :=
  ⟨(C4_invoice_total stamp0 "1 iphone, total: 750€").1 (euros 750)
      (by decide) (by decide) (by decide),
    (C4_invoice_total stamp0 "2 iphone").2 (Or.inl (by decide))⟩

/-- Counterexample for C4 as stated: on "Total: 500€" a source-declared
total of 500.00 is found, yet the produced record's total is 0 (the
declared total is only adopted in the presence of an extracted iPhone
item). -/
theorem C4_counterexample :
    extractTotal (mkFullText "Total: 500€") = some (euros 500) ∧
      (interpret_invoice_data_regex stamp0 "Total: 500€").total = 0 :=
  ⟨by decide, by decide⟩
